import Mathlib

/-!
Shallow embedding of the rule registry and matching engine of
`http-request-mock` (file `src/mocker/mocker.ts`).

The registry (`Mocker.mockConfigData`) is a JavaScript object mapping a
derived key to a mock item; since every derived key contains a `-`
character it is never an array index, so `for ... in` enumeration order is
insertion order.  We model it as an association list together with the
JavaScript assignment semantics `obj[key] = val` (replace in place, else
append).

A JavaScript `RegExp` value is modelled as its source, its flags and its
`test` function; `test` may throw, which we model with `Except`.  The
string conversion used by `String.prototype.indexOf` when it is handed a
`RegExp` is `"/" ++ source ++ "/" ++ flags`.
-/

/-- A JavaScript `url` field of a mock item: either a `RegExp` (source,
flags and a possibly-throwing `test` function) or a plain string. -/
inductive JSUrl where
  | regex (source : String) (flags : String) (test : String → Except String Bool)
  | str (s : String)

/-- The string a `JSUrl` converts to when JavaScript coerces it, as
`String.prototype.indexOf` does with a non-string argument. -/
def urlString : JSUrl → String
  | .regex source flags _ => "/" ++ source ++ "/" ++ flags
  | .str s => s

/-- The `times` field of a mock item: JavaScript `undefined`, `Infinity`,
or a finite number. -/
inductive JSTimes where
  | undef
  | inf
  | fin (n : Int)
deriving DecidableEq

/-- Does `needle` start `hay`?  (Character-list version of JavaScript's
`String.prototype.startsWith`.) -/
def leadsWith : List Char → List Char → Bool
  | [], _ => true
  | _ :: _, [] => false
  | a :: as, b :: bs => a == b && leadsWith as bs

/-- Does `needle` occur somewhere in `hay`?  (Character-list version of
`hay.indexOf(needle) !== -1`.) -/
def occursIn (needle : List Char) : List Char → Bool
  | [] => leadsWith needle []
  | c :: t => leadsWith needle (c :: t) || occursIn needle t

/-- JavaScript `hay.indexOf(needle) !== -1`: substring containment. -/
def jsIncludes (hay needle : String) : Bool :=
  occursIn needle.data hay.data

/-- JavaScript `String.prototype.toLowerCase` (character-wise case
mapping). -/
def jsToLower (s : String) : String :=
  ⟨s.data.map Char.toLower⟩

/-- A validated mock rule, as stored in the registry. -/
structure MockItem where
  key : String
  url : JSUrl
  method : String
  body : String
  delay : Int
  status : Int
  header : List (String × String)
  times : JSTimes
  disable : Bool

/-- The loosely-typed specification handed to `mock` before validation;
absent JavaScript fields are `none` (`times` uses `JSTimes.undef`). -/
structure MockItemInfo where
  url : Option JSUrl
  method : Option String
  body : Option String
  delay : Option Int
  status : Option Int
  header : Option (List (String × String))
  times : JSTimes
  disable : Option Bool

/-- The methods recognized by the engine. -/
def validMethod (m : String) : Bool :=
  m == "get" || m == "post" || m == "put" || m == "patch" ||
  m == "delete" || m == "head" || m == "any"

/-- Modelled from the spec: the `MockItem` class constructor
(`src/mocker/mock-item.ts`, not among the given sources) which validates
and normalizes a loosely-typed rule specification.  Per the spec, the key
is derived deterministically from `urlMatcher` and `method`, registration
yields no key when the url is missing, the method is normalized
case-insensitively with `any` as fallback, and absent options take the
documented defaults: `delay = 0` (non-negative), `status = 200`,
`times = ∞`, `header = {}`. -/
def mkMockItem (info : MockItemInfo) : Option MockItem :=
  match info.url with
  | none => none
  | some u =>
    let mRaw := jsToLower (info.method.getD "any")
    let method := if validMethod mRaw then mRaw else "any"
    some {
      key := urlString u ++ "-" ++ method
      url := u
      method := method
      body := info.body.getD ""
      delay := max 0 (info.delay.getD 0)
      status := info.status.getD 200
      header := info.header.getD []
      times := match info.times with | .undef => .inf | t => t
      disable := info.disable.getD false }

/-- JavaScript object assignment `obj[key] = val` on an association list:
replace in place when the key exists, append otherwise. -/
def setKey : List (String × MockItem) → String → MockItem → List (String × MockItem)
  | [], k, v => [(k, v)]
  | (k0, v0) :: t, k, v =>
    if k0 = k then (k0, v) :: t else (k0, v0) :: setKey t k v

/-- Lookup by key in the registry association list. -/
def lookupKey : List (String × MockItem) → String → Option MockItem
  | [], _ => none
  | (k0, v0) :: t, k => if k0 = k then some v0 else lookupKey t k

/-- The `Mocker` instance state: the registry object, the global disable
switch and the log toggle. -/
structure Mocker where
  mockConfigData : List (String × MockItem)
  disabled : Bool
  log : Bool

/-- The state a fresh `Mocker` is initialized with: empty registry,
enabled, logging only outside Node.js. -/
def initialMocker (nodejs : Bool) : Mocker :=
  { mockConfigData := [], disabled := false, log := !nodejs }

/-- The `Mocker` constructor together with the static `instance` field it
reads and writes: given the current value of `Mocker.instance`, return the
constructed object and the new value of `Mocker.instance`. -/
def constructMocker (nodejs : Bool) : Option Mocker → Mocker × Option Mocker
  | some inst => (inst, some inst)
  | none =>
    let m := initialMocker nodejs
    (m, some m)

/-- `Mocker.getInstance`, which just invokes the constructor. -/
def getInstance (nodejs : Bool) (g : Option Mocker) : Mocker × Option Mocker :=
  constructMocker nodejs g

/-- `addMockItem`: store the item in the registry object under its key. -/
def Mocker.addMockItem (s : Mocker) (key : String) (val : MockItem) : Mocker :=
  { s with mockConfigData := setKey s.mockConfigData key val }

/-- `mock`: validate the specification; on a missing key report the
sentinel failure (`none`, JavaScript `false`) and leave the state alone,
otherwise register the item and return it. -/
def Mocker.mock (s : Mocker) (info : MockItemInfo) : Mocker × Option MockItem :=
  match mkMockItem info with
  | none => (s, none)
  | some item => (s.addMockItem item.key item, some item)

/-- `setMockData`: iterate the entries of the supplied configuration and
`mock` each of them (the existing registry is not touched otherwise). -/
def Mocker.setMockData (s : Mocker) (cfg : List MockItemInfo) : Mocker :=
  cfg.foldl (fun st i => (st.mock i).1) s

/-- `reset`: the source calls `setMockData` with the empty object. -/
def Mocker.reset (s : Mocker) : Mocker :=
  s.setMockData []

/-- `enable`: clear the global disable switch. -/
def Mocker.enable (s : Mocker) : Mocker :=
  { s with disabled := false }

/-- `disable`: set the global disable switch. -/
def Mocker.disable (s : Mocker) : Mocker :=
  { s with disabled := true }

/-- `enableLog`: turn the log toggle on. -/
def Mocker.enableLog (s : Mocker) : Mocker :=
  { s with log := true }

/-- `disableLog`: turn the log toggle off. -/
def Mocker.disableLog (s : Mocker) : Mocker :=
  { s with log := false }

/-- The skip test at the top of the matching loop:
`info.disable === 'yes' || (typeof info.times !== 'undefined' && info.times <= 0)`
(`Infinity` is defined and not `≤ 0`; `undefined` is not defined). -/
def skipped (info : MockItem) : Bool :=
  info.disable ||
    (match info.times with
     | .fin n => n ≤ 0
     | _ => false)

/-- The method comparison of the matching loop: the rule's method,
lowercased, is `any` or equals the lowercased request method. -/
def methodMatches (requestMethod : String) (info : MockItem) : Bool :=
  let method := jsToLower info.method
  method == "any" || method == jsToLower requestMethod

/-- One iteration body of the matching loop (the inside of the `try`
block): `.ok true` means `return info`, `.ok false` means `continue`, and
`.error e` means an exception was raised (to be caught by the loop).  A
`RegExp` url whose `test` returns `false` falls through to the `indexOf`
check against the string conversion of the `RegExp`. -/
def ruleStep (reqUrl requestMethod : String) (info : MockItem) : Except String Bool :=
  if skipped info then .ok false
  else if !methodMatches requestMethod info then .ok false
  else
    match info.url with
    | .regex _ _ test =>
      (match test reqUrl with
       | .error e => .error e
       | .ok true => .ok true
       | .ok false => .ok (jsIncludes reqUrl (urlString info.url)))
    | .str s => .ok (jsIncludes reqUrl s)

/-- The `for ... in` loop of `matchMockItem`: first rule whose step
returns `.ok true`; a raised exception is caught and the loop continues. -/
def matchLoop (reqUrl requestMethod : String) : List (String × MockItem) → Option MockItem
  | [] => none
  | (_, info) :: rest =>
    match ruleStep reqUrl requestMethod info with
    | .error _ => matchLoop reqUrl requestMethod rest
    | .ok true => some info
    | .ok false => matchLoop reqUrl requestMethod rest

/-- `reqMethod || 'get'`: JavaScript defaulting of a falsy request method
(`undefined` or the empty string) to `get`. -/
def defaultedMethod : Option String → String
  | none => "get"
  | some m => if m = "" then "get" else m

/-- `matchMockItem`: the global switch gates everything, then the loop
runs over the registry in insertion order. -/
def Mocker.matchMockItem (s : Mocker) (reqUrl : String) (reqMethod : Option String) :
    Option MockItem :=
  if s.disabled then none
  else matchLoop reqUrl (defaultedMethod reqMethod) s.mockConfigData

/-- Did this rule match (its step returned `.ok true`)? -/
def passes (reqUrl requestMethod : String) (info : MockItem) : Bool :=
  match ruleStep reqUrl requestMethod info with
  | .ok true => true
  | _ => false

/-! ### Concrete states used by witnesses and counterexamples -/

/-- A fresh registry in a Node.js environment. -/
def emptyMocker : Mocker :=
  initialMocker true

/-- A broad rule registered first: any url containing `/api`, method `get`. -/
def itemA : MockItem :=
  { key := "/api-get", url := .str "/api", method := "get", body := "A",
    delay := 0, status := 200, header := [], times := .inf, disable := false }

/-- A more specific rule registered second. -/
def itemB : MockItem :=
  { key := "/api/user-get", url := .str "/api/user", method := "get", body := "B",
    delay := 0, status := 404, header := [], times := .inf, disable := false }

/-- Registry holding `itemA` then `itemB`, enabled. -/
def mockerAB : Mocker :=
  { mockConfigData := [("/api-get", itemA), ("/api/user-get", itemB)],
    disabled := false, log := false }

/-- A rule with its `disable` flag set. -/
def itemOff : MockItem :=
  { key := "/api-any", url := .str "/api", method := "any", body := "",
    delay := 0, status := 200, header := [], times := .inf, disable := true }

/-- An exhausted rule (`times = 0`). -/
def itemSpent : MockItem :=
  { key := "/api-get3", url := .str "/api", method := "get", body := "",
    delay := 0, status := 200, header := [], times := .fin 0, disable := false }

/-- Registry with a disabled rule, an exhausted rule, then `itemB`. -/
def mockerOff : Mocker :=
  { mockConfigData := [("/api-any", itemOff), ("/api-get3", itemSpent), ("/api/user-get", itemB)],
    disabled := false, log := false }

/-- A rule whose pattern evaluation throws. -/
def itemThrow : MockItem :=
  { key := "k1", url := .regex "(" "" (fun _ => Except.error "SyntaxError"),
    method := "get", body := "", delay := 0, status := 200, header := [],
    times := .inf, disable := false }

/-- A plain rule placed after the throwing one. -/
def itemAfter : MockItem :=
  { key := "k2", url := .str "/api", method := "get", body := "ok",
    delay := 0, status := 200, header := [], times := .inf, disable := false }

/-- Registry holding the throwing rule then `itemAfter`. -/
def mockerThrow : Mocker :=
  { mockConfigData := [("k1", itemThrow), ("k2", itemAfter)],
    disabled := false, log := false }

/-! ### General lemmas about the matching loop -/

/-- The matching loop returns the first rule (in list order) whose step
evaluates to a match. -/
theorem matchLoop_eq_find (u rm : String) (l : List (String × MockItem)) :
    matchLoop u rm l = (l.find? (fun p => passes u rm p.2)).map Prod.snd := by
  induction l with
  | nil => rfl
  | cons hd tl ih =>
    obtain ⟨k, info⟩ := hd
    simp only [matchLoop]
    cases h : ruleStep u rm info with
    | error e =>
      have hp : passes u rm info = false := by simp [passes, h]
      simp [List.find?, hp, ih]
    | ok b =>
      cases b
      · have hp : passes u rm info = false := by simp [passes, h]
        simp [List.find?, hp, ih]
      · have hp : passes u rm info = true := by simp [passes, h]
        simp [List.find?, hp]

/-- A skipped rule's step is a `continue`. -/
theorem ruleStep_skipped (u rm : String) (info : MockItem) (h : skipped info = true) :
    ruleStep u rm info = .ok false := by
  simp [ruleStep, h]

/-- Removing skipped rules does not change the loop's result. -/
theorem matchLoop_filter_skipped (u rm : String) (l : List (String × MockItem)) :
    matchLoop u rm (l.filter (fun p => !skipped p.2)) = matchLoop u rm l := by
  induction l with
  | nil => rfl
  | cons hd tl ih =>
    obtain ⟨k, info⟩ := hd
    by_cases hs : skipped info
    · rw [List.filter_cons_of_neg (by simp [hs])]
      rw [ih]
      conv_rhs => rw [matchLoop]
      rw [ruleStep_skipped u rm info hs]
    · rw [List.filter_cons_of_pos (by simp [hs])]
      simp only [matchLoop]
      cases hstep : ruleStep u rm info with
      | error e => exact ih
      | ok b => cases b <;> simp [ih]

/-- A rule returned by the loop is not a skipped one. -/
theorem matchLoop_not_skipped (u rm : String) (l : List (String × MockItem)) (r : MockItem)
    (h : matchLoop u rm l = some r) : skipped r = false := by
  induction l with
  | nil => simp [matchLoop] at h
  | cons hd tl ih =>
    obtain ⟨k, info⟩ := hd
    simp only [matchLoop] at h
    cases hstep : ruleStep u rm info with
    | error e => rw [hstep] at h; exact ih h
    | ok b =>
      cases b
      · rw [hstep] at h; exact ih h
      · rw [hstep] at h
        injection h with h'
        subst h'
        by_contra hsk
        rw [Bool.not_eq_false] at hsk
        have hcontra := (ruleStep_skipped u rm info hsk).symm.trans hstep
        simp at hcontra

/-- A rule whose evaluation raises is skipped over wherever it sits in the
registry, and the rules after it are still consulted. -/
theorem matchLoop_error (u rm : String) (pre post : List (String × MockItem))
    (k : String) (info : MockItem) (e : String)
    (he : ruleStep u rm info = .error e) :
    matchLoop u rm (pre ++ (k, info) :: post) = matchLoop u rm (pre ++ post) := by
  induction pre with
  | nil => simp [matchLoop, he]
  | cons hd tl ih =>
    obtain ⟨k0, i0⟩ := hd
    simp only [List.cons_append, matchLoop]
    cases hstep : ruleStep u rm i0 with
    | error e2 => exact ih
    | ok b => cases b <;> simp [ih]

/-! ### Claim theorems (first batch) -/

/-- C1: first-match-wins — with the global switch enabled, `matchMockItem`
returns exactly the first rule in registry insertion order whose criteria
match the request, regardless of the specificity of later rules. -/
theorem first_match_wins (s : Mocker) (u : String) (m : Option String)
    (h : s.disabled = false) :
    s.matchMockItem u m =
      (s.mockConfigData.find? (fun p => passes u (defaultedMethod m) p.2)).map Prod.snd := by
  simp [Mocker.matchMockItem, h, matchLoop_eq_find]

/-- Witness for C1: both `itemA` and the more specific `itemB` match the
request, and the one registered first, `itemA`, is returned. -/
theorem first_match_wins_witness :
    mockerAB.disabled = false ∧
    mockerAB.matchMockItem "http://x/api/user" none =
      (mockerAB.mockConfigData.find?
        (fun p => passes "http://x/api/user" (defaultedMethod none) p.2)).map Prod.snd ∧
    passes "http://x/api/user" (defaultedMethod none) itemB = true ∧
    mockerAB.matchMockItem "http://x/api/user" none = some itemA :=
  ⟨rfl, first_match_wins mockerAB "http://x/api/user" none rfl, rfl, rfl⟩

/-- C2: the global disable switch gates all matching — after `disable`,
`matchMockItem` returns no match for every request; `enable` after
`disable` restores the pre-disable matching behavior with no
re-registration; and a freshly constructed instance is enabled. -/
theorem global_disable_gate (s : Mocker) (u : String) (m : Option String) (nodejs : Bool)
    (h : s.disabled = false) :
    (s.disable).matchMockItem u m = none ∧
    ((s.disable).enable).matchMockItem u m = s.matchMockItem u m ∧
    (constructMocker nodejs none).1.disabled = false := by
  refine ⟨?_, ?_, rfl⟩
  · simp [Mocker.disable, Mocker.matchMockItem]
  · simp [Mocker.disable, Mocker.enable, Mocker.matchMockItem, h]

/-- Witness for C2: `mockerAB` matches the request while enabled, returns
no match after `disable`, and matches the same way again after `enable`. -/
theorem global_disable_gate_witness :
    mockerAB.disabled = false ∧
    ((mockerAB.disable).matchMockItem "http://x/api/user" none = none ∧
     ((mockerAB.disable).enable).matchMockItem "http://x/api/user" none =
       mockerAB.matchMockItem "http://x/api/user" none ∧
     (constructMocker true none).1.disabled = false) ∧
    mockerAB.matchMockItem "http://x/api/user" none = some itemA :=
  ⟨rfl, global_disable_gate mockerAB "http://x/api/user" none true rfl, rfl⟩

/-- C3: rule skipping — a rule with `disable` set, or with a defined
`times ≤ 0`, is never returned, and dropping all such rules from the
registry does not change the result of any match call (the remaining
rules stay candidates in insertion order). -/
theorem skip_rules (s : Mocker) (u : String) (m : Option String) :
    s.matchMockItem u m =
      ({ s with mockConfigData :=
          s.mockConfigData.filter (fun p => !skipped p.2) }).matchMockItem u m ∧
    ∀ r, s.matchMockItem u m = some r → skipped r = false := by
  constructor
  · simp only [Mocker.matchMockItem]
    by_cases hd : s.disabled
    · simp [hd]
    · simp [hd, matchLoop_filter_skipped]
  · intro r hr
    simp only [Mocker.matchMockItem] at hr
    by_cases hd : s.disabled
    · simp [hd] at hr
    · simp only [hd, if_false] at hr
      exact matchLoop_not_skipped _ _ _ _ hr

/-- Witness for C3: a registry whose first rule is disabled and whose
second is exhausted still matches through to `itemB`, and the returned
rule is not a skipped one. -/
theorem skip_rules_witness :
    mockerOff.matchMockItem "http://x/api/user" none = some itemB ∧
    skipped itemB = false :=
  ⟨rfl, (skip_rules mockerOff "http://x/api/user" none).2 itemB rfl⟩

/-- C5 (code bug): `reset` forwards to `setMockData` with an empty
configuration, which only iterates the supplied entries — it never clears
the registry, so `reset` leaves the whole state (rules included)
unchanged, and a previously registered rule still matches afterwards. -/
theorem reset_does_not_clear :
    (∀ s : Mocker, s.reset = s) ∧
    (mockerAB.reset).matchMockItem "http://x/api/user" none = some itemA :=
  ⟨fun _ => rfl, rfl⟩

/-- C7: an exception raised while evaluating one rule is caught — that
rule is treated as non-matching and the rest of the registry is still
consulted, for a rule at any position; `matchMockItem` itself never
propagates the exception. -/
theorem match_catches (s : Mocker) (u : String) (m : Option String)
    (pre post : List (String × MockItem)) (k : String) (info : MockItem) (e : String)
    (hl : s.mockConfigData = pre ++ (k, info) :: post)
    (he : ruleStep u (defaultedMethod m) info = .error e) :
    s.matchMockItem u m = ({ s with mockConfigData := pre ++ post }).matchMockItem u m := by
  simp only [Mocker.matchMockItem]
  by_cases hd : s.disabled
  · simp [hd]
  · simp only [hd, if_false, hl]
    exact matchLoop_error _ _ pre post k info e he

/-- Witness for C7: the first rule's pattern test throws, and the match
still returns the later rule `itemAfter`. -/
theorem match_catches_witness :
    mockerThrow.mockConfigData = [] ++ ("k1", itemThrow) :: [("k2", itemAfter)] ∧
    ruleStep "http://x/api" (defaultedMethod none) itemThrow = Except.error "SyntaxError" ∧
    mockerThrow.matchMockItem "http://x/api" none =
      ({ mockerThrow with mockConfigData := [] ++ [("k2", itemAfter)] }).matchMockItem
        "http://x/api" none ∧
    mockerThrow.matchMockItem "http://x/api" none = some itemAfter :=
  ⟨rfl, rfl,
   match_catches mockerThrow "http://x/api" none [] [("k2", itemAfter)] "k1" itemThrow
     "SyntaxError" rfl rfl,
   rfl⟩

/-! ### C4: URL test semantics -/

/-- The result of applying a `JSUrl` pattern's `test` function (plain
strings have no `test`; they report `false` here). -/
def urlTest : JSUrl → String → Except String Bool
  | .regex _ _ t, u => t u
  | .str _, _ => .ok false

/-- The `test` function of the pattern `/^q$/`: it accepts exactly the
string `q` and never throws. -/
def testQ : String → Except String Bool :=
  fun u => Except.ok (u == "q")

/-- The pattern `/^q$/`. -/
def regexQ : JSUrl :=
  .regex "^q$" "" testQ

/-- A rule whose url matcher is the pattern `/^q$/`. -/
def itemRegexQ : MockItem :=
  { key := "/^q$/-get", url := regexQ, method := "get", body := "",
    delay := 0, status := 200, header := [], times := .inf, disable := false }

/-- Registry holding only `itemRegexQ`. -/
def mockerRegexQ : Mocker :=
  { mockConfigData := [("/^q$/-get", itemRegexQ)], disabled := false, log := false }

/-- Counterexample to C4 as stated: the pattern `/^q$/` tests `false`
against the request URL `a/^q$/b`, yet the rule is returned, because the
failed pattern test falls through to the `indexOf` check against the
string conversion `/^q$/` of the pattern, which the URL contains. -/
theorem url_test_iff_cex :
    urlTest itemRegexQ.url "a/^q$/b" = Except.ok false ∧
    mockerRegexQ.matchMockItem "a/^q$/b" none = some itemRegexQ :=
  ⟨rfl, rfl⟩

/-- C4 amended: for a candidate rule (not skipped, method compatible)
with a pattern matcher, the rule matches iff the pattern tests true
against the full request URL, or the pattern test returns false and the
request URL contains the string conversion of the pattern as a substring;
with a plain-string matcher, the rule matches iff the request URL
contains that string as a substring (not exact equality). -/
theorem url_test_semantics (u rm : String) (info : MockItem)
    (hs : skipped info = false) (hm : methodMatches rm info = true) :
    (∀ src flags t, info.url = .regex src flags t →
       (ruleStep u rm info = .ok true ↔
         (t u = .ok true ∨
          (t u = .ok false ∧ jsIncludes u (urlString info.url) = true)))) ∧
    (∀ sx, info.url = .str sx →
       (ruleStep u rm info = .ok true ↔ jsIncludes u sx = true)) := by
  constructor
  · intro src flags t hurl
    rw [ruleStep, hs, hm]
    simp only [Bool.false_eq_true, if_false, Bool.not_true, hurl]
    cases ht : t u with
    | error e => simp
    | ok b => cases b <;> simp
  · intro sx hurl
    rw [ruleStep, hs, hm]
    simp only [Bool.false_eq_true, if_false, Bool.not_true, hurl]
    simp

/-- Witness for the amended C4, at the counterexample's inputs: the
pattern test fails but the URL contains the pattern's string form, so the
rule matches. -/
theorem url_test_semantics_witness :
    skipped itemRegexQ = false ∧ methodMatches "get" itemRegexQ = true ∧
    itemRegexQ.url = JSUrl.regex "^q$" "" testQ ∧
    (ruleStep "a/^q$/b" "get" itemRegexQ = Except.ok true ↔
      (testQ "a/^q$/b" = Except.ok true ∨
       (testQ "a/^q$/b" = Except.ok false ∧
        jsIncludes "a/^q$/b" (urlString itemRegexQ.url) = true))) :=
  ⟨rfl, rfl, rfl,
   (url_test_semantics "a/^q$/b" "get" itemRegexQ rfl rfl).1 "^q$" "" testQ rfl⟩

/-! ### C6: registration failure handling -/

/-- A specification with no url, hence no derivable key. -/
def infoNoUrl : MockItemInfo :=
  { url := none, method := some "get", body := some "x", delay := none,
    status := none, header := none, times := .undef, disable := none }

/-- C6: when no key is derivable (no url), `mock` returns the sentinel
failure and leaves the registry untouched; when a key is derivable, it
registers the validated item under that key and returns it. -/
theorem mock_failure_or_register (s : Mocker) (info : MockItemInfo) :
    (mkMockItem info = none ↔ info.url = none) ∧
    (info.url = none → s.mock info = (s, none)) ∧
    (∀ u, info.url = some u →
      ∃ item, mkMockItem info = some item ∧
        s.mock info =
          ({ s with mockConfigData := setKey s.mockConfigData item.key item }, some item)) := by
  refine ⟨?_, ?_, ?_⟩
  · cases h : info.url <;> simp [mkMockItem, h]
  · intro h
    simp [Mocker.mock, mkMockItem, h]
  · intro u h
    have hex : ∃ item, mkMockItem info = some item := by
      cases hmk : mkMockItem info with
      | none => simp [mkMockItem, h] at hmk
      | some item => exact ⟨item, rfl⟩
    obtain ⟨item, hitem⟩ := hex
    refine ⟨item, hitem, ?_⟩
    simp [Mocker.mock, Mocker.addMockItem, hitem]

/-- Witness for C6: on a key-less specification the state is unchanged
and `none` (JavaScript `false`) is reported; a specification with a url
registers successfully. -/
theorem mock_failure_or_register_witness :
    emptyMocker.mock infoNoUrl = (emptyMocker, none) :=
  (mock_failure_or_register emptyMocker infoNoUrl).2.1 rfl

/-! ### C8: replace, not duplicate -/

/-- Number of registry entries stored under a given key. -/
def countKey : List (String × MockItem) → String → Nat
  | [], _ => 0
  | (k0, _) :: t, k => (if k0 = k then 1 else 0) + countKey t k

/-- Every entry of the registry is stored under its item's derived key
(an invariant of all states reachable through `mock`). -/
def keyConsistent (l : List (String × MockItem)) : Prop :=
  ∀ p ∈ l, p.1 = p.2.key

theorem setKey_mem_keys (l : List (String × MockItem)) (k : String) (v : MockItem) :
    k ∈ (setKey l k v).map Prod.fst := by
  induction l with
  | nil => simp [setKey]
  | cons hd tl ih =>
    obtain ⟨k0, v0⟩ := hd
    by_cases hk : k0 = k
    · simp [setKey, hk]
    · simp only [setKey, if_neg hk, List.map_cons, List.mem_cons]
      exact Or.inr ih

/-- Assigning to an existing key leaves the key sequence (hence every
entry's position) unchanged. -/
theorem setKey_keys_of_mem (l : List (String × MockItem)) (k : String) (v : MockItem)
    (h : k ∈ l.map Prod.fst) :
    (setKey l k v).map Prod.fst = l.map Prod.fst := by
  induction l with
  | nil => simp at h
  | cons hd tl ih =>
    obtain ⟨k0, v0⟩ := hd
    by_cases hk : k0 = k
    · simp [setKey, hk]
    · simp only [List.map_cons, List.mem_cons] at h
      rcases h with h1 | h1
      · exact absurd h1.symm hk
      · simp [setKey, hk, ih h1]

/-- Assigning to a fresh key appends it. -/
theorem setKey_keys_of_not_mem (l : List (String × MockItem)) (k : String) (v : MockItem)
    (h : k ∉ l.map Prod.fst) :
    (setKey l k v).map Prod.fst = l.map Prod.fst ++ [k] := by
  induction l with
  | nil => simp [setKey]
  | cons hd tl ih =>
    obtain ⟨k0, v0⟩ := hd
    have hk : ¬k0 = k := by
      intro e
      exact h (by simp [e])
    have htl : k ∉ tl.map Prod.fst := by
      intro e
      exact h (by simp [e])
    simp [setKey, hk, ih htl]

theorem setKey_keys_nodup (l : List (String × MockItem)) (k : String) (v : MockItem)
    (h : (l.map Prod.fst).Nodup) : ((setKey l k v).map Prod.fst).Nodup := by
  by_cases hm : k ∈ l.map Prod.fst
  · rw [setKey_keys_of_mem l k v hm]
    exact h
  · rw [setKey_keys_of_not_mem l k v hm]
    rw [List.nodup_append]
    refine ⟨h, List.nodup_singleton k, ?_⟩
    intro a ha hb
    rw [List.mem_singleton] at hb
    subst hb
    exact hm ha

theorem lookupKey_setKey (l : List (String × MockItem)) (k : String) (v : MockItem) :
    lookupKey (setKey l k v) k = some v := by
  induction l with
  | nil => simp [setKey, lookupKey]
  | cons hd tl ih =>
    obtain ⟨k0, v0⟩ := hd
    by_cases hk : k0 = k <;> simp [setKey, lookupKey, hk, ih]

theorem mem_setKey_self (l : List (String × MockItem)) (k : String) (v : MockItem) :
    (k, v) ∈ setKey l k v := by
  induction l with
  | nil => simp [setKey]
  | cons hd tl ih =>
    obtain ⟨k0, v0⟩ := hd
    by_cases hk : k0 = k
    · subst hk
      simp [setKey]
    · simp only [setKey, if_neg hk, List.mem_cons]
      exact Or.inr ih

theorem countKey_zero_of_not_mem (l : List (String × MockItem)) (k : String)
    (h : k ∉ l.map Prod.fst) : countKey l k = 0 := by
  induction l with
  | nil => rfl
  | cons hd tl ih =>
    obtain ⟨k0, v0⟩ := hd
    have hk : ¬k0 = k := by
      intro e
      exact h (by simp [e])
    have htl : k ∉ tl.map Prod.fst := by
      intro e
      exact h (by simp [e])
    simp [countKey, hk, ih htl]

/-- After an assignment the key occurs exactly once (given the registry
had no duplicate keys, as JavaScript objects cannot). -/
theorem countKey_setKey (l : List (String × MockItem)) (k : String) (v : MockItem)
    (hnd : (l.map Prod.fst).Nodup) : countKey (setKey l k v) k = 1 := by
  induction l with
  | nil => simp [setKey, countKey]
  | cons hd tl ih =>
    obtain ⟨k0, v0⟩ := hd
    simp only [List.map_cons, List.nodup_cons] at hnd
    by_cases hk : k0 = k
    · subst hk
      have h0 : countKey tl k0 = 0 := countKey_zero_of_not_mem tl k0 hnd.1
      simp [setKey, countKey, h0]
    · simp [setKey, countKey, hk, ih hnd.2]

theorem keyConsistent_setKey (l : List (String × MockItem)) (v : MockItem)
    (h : keyConsistent l) : keyConsistent (setKey l v.key v) := by
  induction l with
  | nil =>
    intro p hp
    simp [setKey] at hp
    subst hp
    rfl
  | cons hd tl ih =>
    obtain ⟨k0, v0⟩ := hd
    intro p hp
    by_cases hk : k0 = v.key
    · simp only [setKey, if_pos hk] at hp
      rcases List.mem_cons.mp hp with h1 | h1
      · subst h1
        exact hk
      · exact h p (List.mem_cons_of_mem _ h1)
    · simp only [setKey, if_neg hk] at hp
      rcases List.mem_cons.mp hp with h1 | h1
      · subst h1
        exact h (k0, v0) (List.mem_cons_self _ _)
      · exact ih (fun q hq => h q (List.mem_cons_of_mem _ hq)) p h1

/-- A rule returned by the loop is one of the registry's entries. -/
theorem matchLoop_mem (u rm : String) (l : List (String × MockItem)) (r : MockItem)
    (h : matchLoop u rm l = some r) : ∃ k, (k, r) ∈ l := by
  induction l with
  | nil => simp [matchLoop] at h
  | cons hd tl ih =>
    obtain ⟨k0, i0⟩ := hd
    simp only [matchLoop] at h
    cases hstep : ruleStep u rm i0 with
    | error e =>
      rw [hstep] at h
      obtain ⟨k, hk2⟩ := ih h
      exact ⟨k, List.mem_cons_of_mem _ hk2⟩
    | ok b =>
      cases b
      · rw [hstep] at h
        obtain ⟨k, hk2⟩ := ih h
        exact ⟨k, List.mem_cons_of_mem _ hk2⟩
      · rw [hstep] at h
        injection h with h'
        subst h'
        exact ⟨k0, List.mem_cons_self _ _⟩

/-- With no duplicate keys, two entries under the same key coincide. -/
theorem nodup_key_val_eq (l : List (String × MockItem)) (k : String) (a b : MockItem)
    (hnd : (l.map Prod.fst).Nodup) (ha : (k, a) ∈ l) (hb : (k, b) ∈ l) : a = b := by
  induction l with
  | nil => simp at ha
  | cons hd tl ih =>
    simp only [List.map_cons, List.nodup_cons] at hnd
    rcases List.mem_cons.mp ha with h1 | h1 <;> rcases List.mem_cons.mp hb with h2 | h2
    · exact congrArg Prod.snd (h1.trans h2.symm)
    · exfalso
      apply hnd.1
      rw [← h1]
      exact List.mem_map.mpr ⟨(k, b), h2, rfl⟩
    · exfalso
      apply hnd.1
      rw [← h2]
      exact List.mem_map.mpr ⟨(k, a), h1, rfl⟩
    · exact ih hnd.2 h1 h2

/-- C8: registering two specifications that derive the same key leaves
exactly one rule under that key, at the position of the first
registration (the key sequence is unchanged by the second registration),
holding the second registration's fields; any match that returns a rule
with that key returns exactly the second item. -/
theorem replace_not_duplicate (s : Mocker) (i1 i2 : MockItemInfo) (item1 item2 : MockItem)
    (h1 : mkMockItem i1 = some item1) (h2 : mkMockItem i2 = some item2)
    (hk : item1.key = item2.key)
    (hnd : (s.mockConfigData.map Prod.fst).Nodup)
    (hkc : keyConsistent s.mockConfigData) :
    ((s.mock i1).1.mock i2).1.mockConfigData.map Prod.fst =
      (s.mock i1).1.mockConfigData.map Prod.fst ∧
    countKey ((s.mock i1).1.mock i2).1.mockConfigData item2.key = 1 ∧
    lookupKey ((s.mock i1).1.mock i2).1.mockConfigData item2.key = some item2 ∧
    (∀ u m r, ((s.mock i1).1.mock i2).1.matchMockItem u m = some r →
       r.key = item2.key → r = item2) := by
  have e1 : (s.mock i1).1 = s.addMockItem item1.key item1 := by
    simp [Mocker.mock, h1]
  have e2 : ((s.mock i1).1.mock i2).1 = (s.mock i1).1.addMockItem item2.key item2 := by
    simp [Mocker.mock, h2]
  rw [e2, e1]
  simp only [Mocker.addMockItem]
  have hnd1 : ((setKey s.mockConfigData item1.key item1).map Prod.fst).Nodup :=
    setKey_keys_nodup _ _ _ hnd
  have hnd2 :
      ((setKey (setKey s.mockConfigData item1.key item1) item2.key item2).map Prod.fst).Nodup :=
    setKey_keys_nodup _ _ _ hnd1
  have hkc1 : keyConsistent (setKey s.mockConfigData item1.key item1) :=
    keyConsistent_setKey _ item1 hkc
  have hkc2 :
      keyConsistent (setKey (setKey s.mockConfigData item1.key item1) item2.key item2) :=
    keyConsistent_setKey _ item2 hkc1
  refine ⟨?_, ?_, ?_, ?_⟩
  · exact setKey_keys_of_mem _ item2.key item2 (hk ▸ setKey_mem_keys s.mockConfigData item1.key item1)
  · exact countKey_setKey _ item2.key item2 hnd1
  · exact lookupKey_setKey _ item2.key item2
  · intro u m r hmr hr
    simp only [Mocker.matchMockItem] at hmr
    cases hdis : s.disabled with
    | true => simp [hdis] at hmr
    | false =>
      simp only [hdis, Bool.false_eq_true, if_false] at hmr
      obtain ⟨k, hkmem⟩ := matchLoop_mem _ _ _ _ hmr
      have hk2 : k = r.key := hkc2 (k, r) hkmem
      rw [hk2, hr] at hkmem
      exact nodup_key_val_eq _ item2.key r item2 hnd2 hkmem
        (mem_setKey_self _ item2.key item2)

/-- The first registration of the key `/api-get`. -/
def infoApiA : MockItemInfo :=
  { url := some (.str "/api"), method := some "get", body := some "one",
    delay := none, status := some 201, header := none, times := .undef, disable := none }

/-- A second registration deriving the same key, with a different
`status` and `body`. -/
def infoApiB : MockItemInfo :=
  { url := some (.str "/api"), method := some "get", body := some "two",
    delay := none, status := some 404, header := none, times := .undef, disable := none }

/-- The validated item of `infoApiA`. -/
def itemApiA : MockItem :=
  { key := "/api-get", url := .str "/api", method := "get", body := "one",
    delay := 0, status := 201, header := [], times := .inf, disable := false }

/-- The validated item of `infoApiB`. -/
def itemApiB : MockItem :=
  { key := "/api-get", url := .str "/api", method := "get", body := "two",
    delay := 0, status := 404, header := [], times := .inf, disable := false }

/-- Witness for C8: registering `/api` twice for `get` leaves a single
entry under `/api-get` holding the second item (with `status` 404). -/
theorem replace_not_duplicate_witness :
    lookupKey ((emptyMocker.mock infoApiA).1.mock infoApiB).1.mockConfigData itemApiB.key =
      some itemApiB ∧
    countKey ((emptyMocker.mock infoApiA).1.mock infoApiB).1.mockConfigData itemApiB.key = 1 :=
  have h := replace_not_duplicate emptyMocker infoApiA infoApiB itemApiA itemApiB rfl rfl rfl
    (by simp [emptyMocker, initialMocker])
    (by intro p hp; simp [emptyMocker, initialMocker] at hp)
  ⟨h.2.2.1, h.2.1⟩

/-! ### C9: convenience-registration defaults -/

/-- The recognized options object of the per-method registration helpers;
absent keys are `none` (`times` uses `JSTimes.undef`). -/
structure MockItemExt where
  delay : Option Int
  status : Option Int
  times : JSTimes
  header : Option (List (String × String))

/-- The default options object the helpers declare for a caller that
passes no options at all: `{delay: 0, status: 200, times: Infinity,
header: {}}`. -/
def jsDefaultOpts : MockItemExt :=
  { delay := some 0, status := some 200, times := .inf, header := some [] }

/-- The mock-item literal each helper hands to `mock`: the given url, the
helper's fixed method, the body, and the destructured options. -/
def helperReq (m : String) (u : JSUrl) (b : String) (o : Option MockItemExt) : MockItemInfo :=
  let e := o.getD jsDefaultOpts
  { url := some u, method := some m, body := some b, delay := e.delay,
    status := e.status, header := e.header, times := e.times, disable := none }

/-- `get`: register a rule for HTTP GET. -/
def Mocker.get (s : Mocker) (u : JSUrl) (b : String) (o : Option MockItemExt) : Mocker :=
  (s.mock (helperReq "get" u b o)).1

/-- `post`: register a rule for HTTP POST. -/
def Mocker.post (s : Mocker) (u : JSUrl) (b : String) (o : Option MockItemExt) : Mocker :=
  (s.mock (helperReq "post" u b o)).1

/-- `put`: register a rule for HTTP PUT. -/
def Mocker.put (s : Mocker) (u : JSUrl) (b : String) (o : Option MockItemExt) : Mocker :=
  (s.mock (helperReq "put" u b o)).1

/-- `patch`: register a rule for HTTP PATCH. -/
def Mocker.patch (s : Mocker) (u : JSUrl) (b : String) (o : Option MockItemExt) : Mocker :=
  (s.mock (helperReq "patch" u b o)).1

/-- `delete`: register a rule for HTTP DELETE. -/
def Mocker.delete (s : Mocker) (u : JSUrl) (b : String) (o : Option MockItemExt) : Mocker :=
  (s.mock (helperReq "delete" u b o)).1

/-- `head`: register a rule for HTTP HEAD; the body is forced empty. -/
def Mocker.head (s : Mocker) (u : JSUrl) (o : Option MockItemExt) : Mocker :=
  (s.mock (helperReq "head" u "" o)).1

/-- `any`: register a rule matching every request method. -/
def Mocker.any (s : Mocker) (u : JSUrl) (b : String) (o : Option MockItemExt) : Mocker :=
  (s.mock (helperReq "any" u b o)).1

/-- Every option not supplied by the caller is carried as its default on
the registered item: `delay = 0`, `status = 200`, `times = ∞`,
`header = {}` — both when one key is left out of a supplied options
object and when no options object is passed at all. -/
def optDefaulted (o : Option MockItemExt) (item : MockItem) : Prop :=
  ((o.getD jsDefaultOpts).delay = none → item.delay = 0) ∧
  ((o.getD jsDefaultOpts).status = none → item.status = 200) ∧
  ((o.getD jsDefaultOpts).times = JSTimes.undef → item.times = JSTimes.inf) ∧
  ((o.getD jsDefaultOpts).header = none → item.header = []) ∧
  (o = none → item.delay = 0 ∧ item.status = 200 ∧
    item.times = JSTimes.inf ∧ item.header = [])

/-- A helper with a recognized method registers a validated item whose
method is the helper's, whose unsupplied options are defaulted, and which
lands in the registry under its key. -/
theorem helper_register (m : String) (u : JSUrl) (b : String) (o : Option MockItemExt)
    (hv : validMethod (jsToLower m) = true) :
    ∃ it, mkMockItem (helperReq m u b o) = some it ∧ it.method = jsToLower m ∧
      optDefaulted o it ∧
      ∀ s : Mocker, (s.mock (helperReq m u b o)).1 = s.addMockItem it.key it := by
  cases o with
  | none =>
    refine ⟨_, rfl, ?_, ?_, ?_⟩
    · simp [helperReq, hv]
    · refine ⟨?_, ?_, ?_, ?_, ?_⟩
      · intro h
        simp [helperReq, jsDefaultOpts] at h
      · intro h
        simp [helperReq, jsDefaultOpts] at h
      · intro h
        simp [helperReq, jsDefaultOpts] at h
      · intro h
        simp [helperReq, jsDefaultOpts] at h
      · intro h2
        refine ⟨?_, ?_, ?_, ?_⟩ <;> simp [helperReq, jsDefaultOpts]
    · intro s
      rfl
  | some e =>
    refine ⟨_, rfl, ?_, ?_, ?_⟩
    · simp [helperReq, hv]
    · refine ⟨?_, ?_, ?_, ?_, ?_⟩
      · intro h
        simp only [helperReq, Option.getD_some] at h ⊢
        simp [h]
      · intro h
        simp only [helperReq, Option.getD_some] at h ⊢
        simp [h]
      · intro h
        simp only [helperReq, Option.getD_some] at h ⊢
        simp [h]
      · intro h
        simp only [helperReq, Option.getD_some] at h ⊢
        simp [h]
      · intro h2
        simp at h2
    · intro s
      rfl

/-- C9: each per-method helper (`get`, `post`, `put`, `patch`, `delete`,
`head`, `any`) registers a rule whose method is fixed to the helper's
method and whose unsupplied options among `{delay, status, times,
header}` carry the defaults `delay = 0`, `status = 200`, `times = ∞`,
`header = {}`. -/
theorem helper_defaults (u : JSUrl) (b : String) (o : Option MockItemExt) :
    (∃ it, mkMockItem (helperReq "get" u b o) = some it ∧ it.method = "get" ∧
       optDefaulted o it ∧ ∀ s : Mocker, s.get u b o = s.addMockItem it.key it) ∧
    (∃ it, mkMockItem (helperReq "post" u b o) = some it ∧ it.method = "post" ∧
       optDefaulted o it ∧ ∀ s : Mocker, s.post u b o = s.addMockItem it.key it) ∧
    (∃ it, mkMockItem (helperReq "put" u b o) = some it ∧ it.method = "put" ∧
       optDefaulted o it ∧ ∀ s : Mocker, s.put u b o = s.addMockItem it.key it) ∧
    (∃ it, mkMockItem (helperReq "patch" u b o) = some it ∧ it.method = "patch" ∧
       optDefaulted o it ∧ ∀ s : Mocker, s.patch u b o = s.addMockItem it.key it) ∧
    (∃ it, mkMockItem (helperReq "delete" u b o) = some it ∧ it.method = "delete" ∧
       optDefaulted o it ∧ ∀ s : Mocker, s.delete u b o = s.addMockItem it.key it) ∧
    (∃ it, mkMockItem (helperReq "head" u "" o) = some it ∧ it.method = "head" ∧
       optDefaulted o it ∧ ∀ s : Mocker, s.head u o = s.addMockItem it.key it) ∧
    (∃ it, mkMockItem (helperReq "any" u b o) = some it ∧ it.method = "any" ∧
       optDefaulted o it ∧ ∀ s : Mocker, s.any u b o = s.addMockItem it.key it) := by
  refine ⟨?_, ?_, ?_, ?_, ?_, ?_, ?_⟩
  · obtain ⟨it, h1, h2, h3, h4⟩ := helper_register "get" u b o rfl
    exact ⟨it, h1, h2, h3, h4⟩
  · obtain ⟨it, h1, h2, h3, h4⟩ := helper_register "post" u b o rfl
    exact ⟨it, h1, h2, h3, h4⟩
  · obtain ⟨it, h1, h2, h3, h4⟩ := helper_register "put" u b o rfl
    exact ⟨it, h1, h2, h3, h4⟩
  · obtain ⟨it, h1, h2, h3, h4⟩ := helper_register "patch" u b o rfl
    exact ⟨it, h1, h2, h3, h4⟩
  · obtain ⟨it, h1, h2, h3, h4⟩ := helper_register "delete" u b o rfl
    exact ⟨it, h1, h2, h3, h4⟩
  · obtain ⟨it, h1, h2, h3, h4⟩ := helper_register "head" u "" o rfl
    exact ⟨it, h1, h2, h3, h4⟩
  · obtain ⟨it, h1, h2, h3, h4⟩ := helper_register "any" u b o rfl
    exact ⟨it, h1, h2, h3, h4⟩

/-! ### C10: singleton registry -/

/-- C10: constructing against an existing instance returns that same
instance and leaves the stored instance unchanged — a second construction
(or `getInstance`) never yields a fresh empty registry, so all handles
share one state. -/
theorem singleton_instance (nodejs : Bool) (g : Option Mocker) :
    constructMocker nodejs (constructMocker nodejs g).2 = constructMocker nodejs g ∧
    getInstance nodejs (constructMocker nodejs g).2 = constructMocker nodejs g ∧
    (constructMocker nodejs g).2 = some (constructMocker nodejs g).1 := by
  cases g <;> simp [constructMocker, getInstance]

/-- Witness for C9: a concrete `get` registration with no options object
carries all four defaults and the method `get`. -/
theorem helper_defaults_witness :
    ∃ it, mkMockItem (helperReq "get" (.str "/w") "B" none) = some it ∧ it.method = "get" ∧
      optDefaulted none it ∧
      ∀ s : Mocker, s.get (.str "/w") "B" none = s.addMockItem it.key it :=
  (helper_defaults (.str "/w") "B" none).1
